import Mathlib

/-!
Shallow embedding of the core of the `Catalogue_cross_calibration` repository
(`src/cross_calibration.py` and `src/util.py`) and proofs about it.

Modelling conventions:
* Python `datetime` objects are modelled by their proleptic-Gregorian ordinal
  (`datetime.date.toordinal`) together with a seconds-within-day component
  (`PyDateTime`).  `date + dt.timedelta(i)` is ordinal addition, and comparison
  of datetimes at midnight is ordinal comparison.
* Filesystem access (`glob.glob`) and FITS header reads are passed in as
  explicit function parameters; an exception is an `Except`/`Option` value.
  `IOError` raised by `search_file`/`process_date` is `UtilErr.ioError` /
  `none`; Python's `UnboundLocalError` crash in `process_instruments` for
  distinct instruments is `none` of `windowBounds`.
* FITS header values for `INTERVAL` are either absent (`KeyError`), the empty
  string, or an integer (`Raw`); `MISSVALS` is either absent or an integer.
  Comparing an integer against the empty string raises `TypeError` in
  Python 3, modelled by `UtilErr.typeError`.
* `numpy` arrays of angles are lists of rationals; `np.nanmean` is the plain
  arithmetic mean of the list (the NaN aspect of floats is not modelled).
* `list(set(xs))` is modelled by `List.dedup`, which is faithful up to
  membership (Python's set order is unspecified).
-/

namespace CrossCal

/-- Proleptic Gregorian leap-year test (as used by `datetime`). -/
def isLeap (y : Int) : Bool :=
  (y % 4 == 0 && y % 100 != 0) || y % 400 == 0

/-- Days before the first of month `m` in year `y` (month 1 = January). -/
def daysBeforeMonth (y m : Int) : Int :=
  let base : Int :=
    if m = 1 then 0 else if m = 2 then 31 else if m = 3 then 59
    else if m = 4 then 90 else if m = 5 then 120 else if m = 6 then 151
    else if m = 7 then 181 else if m = 8 then 212 else if m = 9 then 243
    else if m = 10 then 273 else if m = 11 then 304 else 334
  if 2 < m ∧ isLeap y then base + 1 else base

/-- `datetime.date(y, m, d).toordinal()`: day number with 0001-01-01 = 1. -/
def toOrdinal (y m d : Int) : Int :=
  365 * (y - 1) + (y - 1) / 4 - (y - 1) / 100 + (y - 1) / 400 +
    daysBeforeMonth y m + d

/-- Inverse of `toOrdinal` (civil-from-days); used only to format dates into
file-name patterns, mirroring `date.year`, `date.month`, `strftime`. -/
def ymdOfOrdinal (ordn : Int) : Int × Int × Int :=
  let z := ordn + 305
  let era := z / 146097
  let doe := z - era * 146097
  let yoe := (doe - doe / 1460 + doe / 36524 - doe / 146096) / 365
  let y := yoe + era * 400
  let doy := doe - (365 * yoe + yoe / 4 - yoe / 100)
  let mp := (5 * doy + 2) / 153
  let d := doy - (153 * mp + 2) / 5 + 1
  let m := mp + (if mp < 12 then 3 else -9)
  (y + (if m ≤ 2 then 1 else 0), m, d)

/-- `'%0Nd' % x`: decimal rendering of `x` left-padded with zeros to width `n`. -/
def padN (n : Nat) (x : Int) : String :=
  let s := toString x
  if s.length < n then String.mk (List.replicate (n - s.length) '0') ++ s else s

/-- `date.strftime('%Y%m%d')` on a date given by its ordinal. -/
def strftimeYmd (ordn : Int) : String :=
  let ymd := ymdOfOrdinal ordn
  toString ymd.1 ++ padN 2 ymd.2.1 ++ padN 2 ymd.2.2

/-- A Python `datetime.datetime`: ordinal of its calendar date plus the
time-of-day in seconds.  `toordinal()` is `.ord`; `fromordinal n` is
`⟨n, 0⟩` (midnight). -/
structure PyDateTime where
  ord : Int
  secs : Int
deriving DecidableEq, Repr

/-- `util.date_offset`: ordinal of the instrument start date `date(year,1,1)`. -/
def date_offset (instr : String) : Int :=
  let year : Int :=
    if instr = "spmg" then 1990
    else if instr = "mdi" then 1993
    else if instr = "hmi" then 2009
    else 1970
  toOrdinal year 1 1

/-- `util.date2md`: `date.toordinal() - date_offset(instr).toordinal()`. -/
def date2md (date : PyDateTime) (instr : String) : Int :=
  date.ord - date_offset instr

/-- `util.md2date`: `datetime.fromordinal(md + date_offset(instr).toordinal())`. -/
def md2date (md : Int) (instr : String) : PyDateTime :=
  { ord := md + date_offset instr, secs := 0 }

/-- `util.date_defaults`: start/end ordinals per instrument; `none` is the
`ValueError` raised for an unrecognized instrument. -/
def date_defaults (instr : String) : Option (Int × Int) :=
  if instr = "512" then some (toOrdinal 1976 1 5, toOrdinal 1993 4 9)
  else if instr = "spmg" then some (toOrdinal 1992 4 21, toOrdinal 1999 12 30)
  else if instr = "mdi" then some (toOrdinal 1996 4 15, toOrdinal 2011 4 11)
  else if instr = "hmi" then some (toOrdinal 2010 4 8, toOrdinal 2016 7 5)
  else none

/-- The `start_i1, end_i1, start_i2, end_i2` assignment of
`cross_calibration.process_instruments` (lines 98-108).  These variables are
assigned only inside the `if i1==i2:` branch; for `i1 ≠ i2` they are left
unbound and line 109 raises `UnboundLocalError`, modelled as `none`. -/
def windowBounds (i1 i2 : String) : Option ((Int × Int) × (Int × Int)) :=
  if i1 = i2 then
    if i1 = "512" ∨ i1 = "spmg" then
      match date_defaults "512", date_defaults "spmg" with
      | some p, some q => some (p, q)
      | _, _ => none
    else if i1 = "mdi" then
      match date_defaults "spmg", date_defaults "mdi" with
      | some p, some q => some (p, q)
      | _, _ => none
    else
      match date_defaults "mdi", date_defaults "hmi" with
      | some p, some q => some (p, q)
      | _, _ => none
  else
    none

/-- `start = max(start_i1, start_i2); end = min(end_i1, end_i2)`
(`process_instruments` lines 109-110), on top of `windowBounds`. -/
def scanWindow (i1 i2 : String) : Option (Int × Int) :=
  (windowBounds i1 i2).map (fun pq => (max pq.1.1 pq.2.1, min pq.1.2 pq.2.2))

/-- Python exceptions appearing in the modelled code paths. -/
inductive UtilErr where
  | ioError
  | valueError
  | indexError
  | typeError
deriving DecidableEq, Repr

/-- A raw FITS header value for `INTERVAL`: the empty string or an integer. -/
inductive Raw where
  | emptyStr
  | int (n : Int)
deriving DecidableEq, Repr

/-- One MDI candidate file: its path and the header fields read by
`mdi_file_choose` (`none` = the key is missing and the read raises
`KeyError`). -/
structure Candidate where
  name : String
  interval : Option Raw
  missvals : Option Int
deriving DecidableEq, Repr

/-- `intv = 0 if intv == '' else int(intv)` (`util.py` lines 284-287). -/
def parseInterval : Raw → Int
  | Raw.emptyStr => 0
  | Raw.int n => n

/-- One iteration of the `for x in f:` loop of `util.mdi_file_choose`.
State is `(best, ival, mv)`.  `ival` holds the raw header value stored by
`ival = m[0].header['INTERVAL']`, so after an empty-string header is stored,
the next comparison `intv >= ival` is `int >= str` and raises `TypeError`. -/
def chooseStep (st : String × Raw × Int) (x : Candidate) :
    Except UtilErr (String × Raw × Int) :=
  match x.interval with
  | none => Except.ok st
  | some raw =>
    match st.2.1 with
    | Raw.emptyStr => Except.error UtilErr.typeError
    | Raw.int v =>
      if parseInterval raw ≥ v then
        match x.missvals with
        | none => Except.ok st
        | some mvx =>
          if mvx < st.2.2 then Except.ok (x.name, raw, mvx) else Except.ok st
      else Except.ok st

/-- `util.mdi_file_choose`: `best = f[-1]; ival = 0; mv = 100000` followed by
the candidate loop.  `f[-1]` on an empty list raises `IndexError`. -/
def mdi_file_choose (f : List Candidate) : Except UtilErr String :=
  match f.getLast? with
  | none => Except.error UtilErr.indexError
  | some lastc =>
    (f.foldlM chooseStep (lastc.name, Raw.int 0, 100000)).map (fun st => st.1)

/-- `os.path.join` (posix semantics) over a component list. -/
def pathJoin (ps : List String) : String :=
  match ps with
  | [] => ""
  | head :: tail =>
    tail.foldl
      (fun path b =>
        if b.startsWith "/" then b
        else if path = "" ∨ path.endsWith "/" then path ++ b
        else path ++ "/" ++ b)
      head

/-- The two return shapes of `util.search_file`: a single path (auto mode) or
the whole glob list. -/
inductive FileRet where
  | single (f : String)
  | multiple (fs : List String)
deriving DecidableEq, Repr

/-- Whether a `search_file` return value is non-empty. -/
def retNonempty : FileRet → Bool
  | FileRet.single _ => true
  | FileRet.multiple fs => !fs.isEmpty

/-- The `searchspec` string built by `util.search_file` (defaults plus the
per-instrument overrides); `none` is the `ValueError` for an unrecognized
instrument. -/
def searchSpec (dataRoot : String) (date : PyDateTime) (instr : String) :
    Option String :=
  let fn0 := instr.toUpper
  let filename := "*" ++ strftimeYmd date.ord ++ "*.fits"
  if instr = "512" then
    let ymd := ymdOfOrdinal date.ord
    some (pathJoin [dataRoot, "KPVT", toString (ymd.1 - 1900) ++ padN 2 ymd.2.1,
      "*" ++ strftimeYmd date.ord ++ "*.fits"])
  else if instr = "spmg" then
    let ymd := ymdOfOrdinal date.ord
    some (pathJoin [dataRoot, fn0, toString (ymd.1 - 1900) ++ padN 2 ymd.2.1,
      filename])
  else if instr = "mdi" then
    let md := date2md date "mdi"
    some (pathJoin [dataRoot, fn0,
      pathJoin [toString (ymdOfOrdinal date.ord).1, "fd_M_96m_01d." ++ padN 6 md],
      "fd_M_96m_01d." ++ toString md ++ ".0*.fits"])
  else if instr = "hmi" then
    some (pathJoin [dataRoot, fn0, "", filename])
  else none

/-- `util.search_file`.  `glob` is `glob.glob`; `hdr` gives the
(`INTERVAL`, `MISSVALS`) header fields of a path, consumed only on the
`mdi`-with-auto path by `mdi_file_choose`. -/
def search_file (glob : String → List String)
    (hdr : String → Option Raw × Option Int) (dataRoot : String)
    (date : PyDateTime) (instr : String) (auto : Bool) :
    Except UtilErr FileRet :=
  match searchSpec dataRoot date instr with
  | none => Except.error UtilErr.valueError
  | some spec =>
    match glob spec with
    | [] => Except.error UtilErr.ioError
    | f :: fs =>
      if instr = "mdi" ∧ auto = true then
        (mdi_file_choose ((f :: fs).map
          (fun nm => { name := nm, interval := (hdr nm).1,
                       missvals := (hdr nm).2 }))).map FileRet.single
      else if auto = true then
        Except.ok (FileRet.single ((f :: fs).getLast (List.cons_ne_nil f fs)))
      else
        Except.ok (FileRet.multiple (f :: fs))

/-- Python `range(a, b)` as a list of integers. -/
def pyRange (a b : Int) : List Int :=
  (List.range (b - a).toNat).map (fun (j : Nat) => a + (j : Int))

/-- One iteration of the offset loop of `cross_calibration.process_date`
(lines 66-76).  `s` is `z.search_file(·, ·, auto=False)` at day granularity,
with `none` for a raised `IOError`; the accumulator holds `(fList1, fList2)`.
If either search raises, the iteration is skipped (`except IOError`); if
`f1 == f2 and i1 != 'mdi' and i2 != 'mdi'`, the iteration is skipped
(`continue`); otherwise both lists are extended. -/
def dateStep (s : Int → String → Option (List String)) (i1 i2 : String)
    (date : Int) (acc : List String × List String) (i : Int) :
    List String × List String :=
  match s (date + i) i1, s date i2 with
  | some f1, some f2 =>
    if f1 = f2 ∧ i1 ≠ "mdi" ∧ i2 ≠ "mdi" then acc
    else (acc.1 ++ f1, acc.2 ++ f2)
  | _, _ => acc

/-- What offset `k` contributes to `fList1` in `process_date`. -/
def contrib1 (s : Int → String → Option (List String)) (i1 i2 : String)
    (date k : Int) : List String :=
  match s (date + k) i1, s date i2 with
  | some f1, some f2 =>
    if f1 = f2 ∧ i1 ≠ "mdi" ∧ i2 ≠ "mdi" then [] else f1
  | _, _ => []

/-- What offset `k` contributes to `fList2` in `process_date`. -/
def contrib2 (s : Int → String → Option (List String)) (i1 i2 : String)
    (date k : Int) : List String :=
  match s (date + k) i1, s date i2 with
  | some f1, some f2 =>
    if f1 = f2 ∧ i1 ≠ "mdi" ∧ i2 ≠ "mdi" then [] else f2
  | _, _ => []

/-- The `(fList1, fList2)` accumulated by the loop
`for i in range(0 - timeTolerance, 1 + timeTolerance)` of `process_date`. -/
def processDateLists (s : Int → String → Option (List String)) (i1 i2 : String)
    (date t : Int) : List String × List String :=
  (pyRange (0 - t) (1 + t)).foldl (dateStep s i1 i2 date) ([], [])

/-- `itertools.product(l1, l2)` in its iteration order. -/
def pyProduct (l1 l2 : List String) : List (String × String) :=
  l1.flatMap (fun a => l2.map (fun b => (a, b)))

/-- `cross_calibration.process_date`:
`result = list(set(itertools.product(fList1, fList2)))`, raising `IOError`
(= `none`) when the result is empty. -/
def process_date (s : Int → String → Option (List String)) (i1 i2 : String)
    (date t : Int) : Option (List (String × String)) :=
  if (pyProduct (processDateLists s i1 i2 date t).1
      (processDateLists s i1 i2 date t).2).dedup = []
  then none
  else some ((pyProduct (processDateLists s i1 i2 date t).1
      (processDateLists s i1 i2 date t).2).dedup)

/-- The `while date < end:` loop of `cross_calibration.process_instruments`
(lines 115-122).  `matcher` is `process_date i1 i2 · timeTolerance` with
`none` for a raised `IOError`; on success both `files` and `dates` grow, on
failure neither does, and `finally: date += dt.timedelta(1)` advances the day
unconditionally. -/
def scanLoop (matcher : Int → Option (List (String × String)))
    (date endd : Int) (files : List (String × String)) (dates : List Int) :
    List (String × String) × List Int :=
  if _h : date < endd then
    match matcher date with
    | some fs => scanLoop matcher (date + 1) endd (files ++ fs) (dates ++ [date])
    | none => scanLoop matcher (date + 1) endd files dates
  else
    (files, dates)
termination_by (endd - date).toNat
decreasing_by
  all_goals omega

/-- `cross_calibration.process_instruments` on its `timeTolerance != 1` path
(the `timeTolerance == 1` path loads a pickled overlap and is pure I/O):
window selection, the day loop, and the final `list(set(files))`. -/
def process_instruments (s : Int → String → Option (List String))
    (i1 i2 : String) (timeTolerance : Int) :
    Option (List (String × String) × List Int) :=
  match windowBounds i1 i2 with
  | none => none
  | some pq =>
    let start := max pq.1.1 pq.2.1
    let endd := min pq.1.2 pq.2.2
    let r := scanLoop (fun d => process_date s i1 i2 d timeTolerance)
      start endd [] []
    some (r.1.dedup, r.2)

/-- `np.nanmean` on a list of rationals (plain arithmetic mean). -/
def nanmean (l : List ℚ) : ℚ := l.sum / l.length

/-- The wraparound correction of `util.diff_rot` (lines 319-320):
`if np.nanmean(rotation).value > 90: rotation -= 360*u.deg`. -/
def diffRotAdjust (rot : List ℚ) : List ℚ :=
  if nanmean rot > 90 then rot.map (fun x => x - 360) else rot

/-- A `CRD` observation after `heliographic()` has been called: observation
time (seconds), latitude grid, longitude grid, and the `lonhOld` attribute
(absent before `fix_longitude` assigns it). -/
structure CRDState where
  dateSecs : ℚ
  lath : List ℚ
  lonh : List ℚ
  lonhOld : Option (List ℚ)
deriving DecidableEq, Repr

/-- `util.diff_rot`: the sunpy differential-rotation kernel is the external
parameter `sunRot` (applied to the time difference in seconds and `m2`'s
latitude grid); its output then gets the wraparound correction. -/
def diff_rot (sunRot : ℚ → List ℚ → List ℚ) (m1 m2 : CRDState) : List ℚ :=
  diffRotAdjust (sunRot (m1.dateSecs - m2.dateSecs) m2.lath)

/-- `cross_calibration.fix_longitude` after the `heliographic()` calls:
`m2.lonhOld = m2.lonh; m2.lonh = rotation.value + m2.lonh` (elementwise),
`m1` untouched. -/
def fix_longitude (sunRot : ℚ → List ℚ → List ℚ) (m1 m2 : CRDState) :
    CRDState × CRDState :=
  let rotation := diff_rot sunRot m1 m2
  (m1, { m2 with lonhOld := some m2.lonh,
                 lonh := List.zipWith (fun a b => a + b) rotation m2.lonh })

/-- Concrete lookup for the C2 counterexample: the two instruments resolve
overlapping (but not identical) filename lists. -/
def sCex : Int → String → Option (List String) := fun _ i =>
  if i = "a" then some ["x", "y"] else if i = "b" then some ["x"] else none

/-- Concrete lookup for the C2 witness: the two instruments resolve disjoint
filename lists. -/
def sDisj : Int → String → Option (List String) := fun _ i =>
  if i = "a" then some ["x"] else if i = "b" then some ["y"] else none

/-- Concrete lookup for the C6 witness. -/
def sAgree1 : Int → String → Option (List String) := fun d i =>
  if i = "a" ∧ -1 ≤ d ∧ d ≤ 1 then some ["u"]
  else if i = "b" ∧ d = 0 then some ["v"]
  else none

/-- Concrete lookup for the C6 witness: agrees with `sAgree1` on instrument
`"a"` at offsets `-1..1` from day 0 and on instrument `"b"` at day 0, and
differs everywhere else. -/
def sAgree2 : Int → String → Option (List String) := fun d i =>
  if i = "a" ∧ -1 ≤ d ∧ d ≤ 1 then some ["u"]
  else if i = "b" ∧ d = 0 then some ["v"]
  else some ["w"]

/-- Concrete lookup for the C7 witness matcher. -/
def sScan : Int → String → Option (List String) := fun d i =>
  if i = "a" ∧ d = 0 then some ["x"] else if i = "b" then some ["y"] else none

/-- Concrete glob for the C4 counterexample: two matching MDI files. -/
def globTwo : String → List String := fun _ => ["f1", "f2"]

/-- Concrete headers for the C4 counterexample: `f1` has an empty-string
`INTERVAL` (and becomes the running best), `f2` has an integer `INTERVAL`. -/
def hdrCex : String → Option Raw × Option Int := fun nm =>
  if nm = "f1" then (some Raw.emptyStr, some 5) else (some (Raw.int 3), some 4)

/-- Concrete glob for the C4 witness: the expansion is empty. -/
def globNone : String → List String := fun _ => []

/-- Concrete headers for the C4 witness (never consulted). -/
def hdrNone : String → Option Raw × Option Int := fun _ => (none, none)

/-- A concrete datetime (2007-06-20, ordinal 732847) used by witnesses. -/
def d₀ : PyDateTime := { ord := 732847, secs := 0 }

/-- First MDI candidate of the C3 selection example: interval 5, 10 missing
values. -/
def cand1 : Candidate := { name := "a", interval := some (Raw.int 5), missvals := some 10 }

/-- Second MDI candidate of the C3 selection example: interval 5, 8 missing
values. -/
def cand2 : Candidate := { name := "b", interval := some (Raw.int 5), missvals := some 8 }

/-- Third MDI candidate of the C3 selection example: interval 3, 1 missing
value. -/
def cand3 : Candidate := { name := "c", interval := some (Raw.int 3), missvals := some 1 }

end CrossCal

namespace CrossCal

/-- Claim C9: `MissionDayResolver` (= `mdi_file_choose`) on an empty candidate
list fails with an error (`f[-1]` raises `IndexError`, the code's realization
of the spec's `PreconditionError`) and never returns a candidate. -/
theorem claim_C9_empty_input :
    mdi_file_choose [] = Except.error UtilErr.indexError := rfl

/-- Claim C10: converting a date to an instrument mission-day number and back
is a round trip up to dropping the time-of-day: for every datetime `d` and
instrument `instr`, `md2date (date2md d instr) instr` is the same calendar
day as `d` at midnight. -/
theorem claim_C10_roundtrip (d : PyDateTime) (instr : String) :
    md2date (date2md d instr) instr = { ord := d.ord, secs := 0 } := by
  simp [md2date, date2md]

/-- Claim C1 (code bug): for distinct instruments `process_instruments` never
computes the intersection of the two validity ranges — the window variables
are only assigned in the `i1==i2` branch, so the scan-window computation
crashes (`none`); the same-instrument lookup-table cases do produce the
max-of-starts/min-of-ends window of the substituted pair. -/
theorem claim_C1_scan_window :
    scanWindow "512" "spmg" = none ∧
    scanWindow "mdi" "hmi" = none ∧
    scanWindow "512" "512" = some (toOrdinal 1992 4 21, toOrdinal 1993 4 9) ∧
    scanWindow "spmg" "spmg" = some (toOrdinal 1992 4 21, toOrdinal 1993 4 9) ∧
    scanWindow "mdi" "mdi" = some (toOrdinal 1996 4 15, toOrdinal 1999 12 30) ∧
    scanWindow "hmi" "hmi" = some (toOrdinal 2010 4 8, toOrdinal 2011 4 11) := by
  refine ⟨rfl, rfl, by decide, by decide, by decide, by decide⟩

/-- Claim C3: `mdi_file_choose` replaces the running best exactly when the new
candidate's interval is `≥` the tracked best interval and its missing-value
count is `<` the tracked best count (integer-valued headers); on the interval
list `[5, 5, 3]` with missing values `[10, 8, 1]` it selects the second
candidate. -/
theorem claim_C3_selection :
    (∀ (b : String) (v m : Int) (x : Candidate) (n mvx : Int),
      x.interval = some (Raw.int n) → x.missvals = some mvx →
      chooseStep (b, Raw.int v, m) x =
        Except.ok (if v ≤ n ∧ mvx < m then (x.name, Raw.int n, mvx)
                   else (b, Raw.int v, m))) ∧
    mdi_file_choose [cand1, cand2, cand3] = Except.ok "b" := by
  constructor
  · intro b v m x n mvx hint hmiss
    by_cases h1 : v ≤ n
    · by_cases h2 : mvx < m
      · simp [chooseStep, hint, hmiss, parseInterval, ge_iff_le, h1, h2]
      · simp [chooseStep, hint, hmiss, parseInterval, ge_iff_le, h1, h2]
    · simp [chooseStep, hint, hmiss, parseInterval, ge_iff_le, h1]
  · rfl

/-- Witness for C3: the step characterization applied at a concrete state and
candidate, plus the concrete three-candidate selection. -/
theorem claim_C3_witness :
    chooseStep ("z", Raw.int 2, 7)
      { name := "w", interval := some (Raw.int 5), missvals := some 3 } =
      Except.ok ("w", Raw.int 5, 3) ∧
    mdi_file_choose [cand1, cand2, cand3] = Except.ok "b" := by
  have h1 := claim_C3_selection.1 "z" 2 7
    { name := "w", interval := some (Raw.int 5), missvals := some 3 } 5 3 rfl rfl
  rw [if_pos (by norm_num)] at h1
  exact ⟨h1, claim_C3_selection.2⟩

/-- Sum of a constant shift: used for the C5 mean computation. -/
theorem sum_map_sub_const (l : List ℚ) (c : ℚ) :
    (l.map (fun x => x - c)).sum = l.sum - l.length * c := by
  induction l with
  | nil => simp
  | cons a l ih =>
    simp [ih]
    ring

/-- Shifting every element by `-c` shifts the mean by `-c`. -/
theorem nanmean_map_sub_const (l : List ℚ) (c : ℚ) (h : l ≠ []) :
    nanmean (l.map (fun x => x - c)) = nanmean l - c := by
  have hl : (l.length : ℚ) ≠ 0 := by
    have := List.length_pos.mpr h
    positivity
  unfold nanmean
  rw [List.length_map, sum_map_sub_const]
  field_simp

/-- Claim C5: the wraparound branch of `diff_rot` subtracts 360 from every
element exactly when the mean exceeds 90 degrees (shifting the mean by
exactly −360) and leaves the field unchanged otherwise. -/
theorem claim_C5_wraparound (rot : List ℚ) :
    (nanmean rot > 90 →
      diffRotAdjust rot = rot.map (fun x => x - 360) ∧
      (rot ≠ [] → nanmean (diffRotAdjust rot) = nanmean rot - 360)) ∧
    (¬ nanmean rot > 90 → diffRotAdjust rot = rot) := by
  constructor
  · intro hmean
    have heq : diffRotAdjust rot = rot.map (fun x => x - 360) := by
      simp [diffRotAdjust, hmean]
    exact ⟨heq, fun hne => by rw [heq, nanmean_map_sub_const rot 360 hne]⟩
  · intro hmean
    simp [diffRotAdjust, hmean]

/-- Witness for C5: a field with mean 95 is shifted to `[-265]`, mean
`95 - 360 = -265`. -/
theorem claim_C5_witness :
    diffRotAdjust [(95 : ℚ)] = [-265] ∧
    nanmean (diffRotAdjust [(95 : ℚ)]) = -265 := by
  have h := (claim_C5_wraparound [(95 : ℚ)]).1 (by norm_num [nanmean])
  constructor
  · rw [h.1]
    norm_num
  · rw [h.2 (by simp)]
    norm_num [nanmean]

/-- Claim C8: `fix_longitude` leaves observation 1 untouched, saves
observation 2's longitude grid unchanged under `lonhOld`, and rewrites
observation 2's longitude grid to rotation-plus-original; observation 2's
other fields are untouched. -/
theorem claim_C8_preserves_grids (sunRot : ℚ → List ℚ → List ℚ)
    (m1 m2 : CRDState) :
    (fix_longitude sunRot m1 m2).1 = m1 ∧
    (fix_longitude sunRot m1 m2).2.lonhOld = some m2.lonh ∧
    (fix_longitude sunRot m1 m2).2.lonh =
      List.zipWith (fun a b => a + b) (diff_rot sunRot m1 m2) m2.lonh ∧
    (fix_longitude sunRot m1 m2).2.lath = m2.lath ∧
    (fix_longitude sunRot m1 m2).2.dateSecs = m2.dateSecs :=
  ⟨rfl, rfl, rfl, rfl, rfl⟩

/-- Membership in Python's `range(a, b)`. -/
theorem mem_pyRange {a b k : Int} : k ∈ pyRange a b ↔ a ≤ k ∧ k < b := by
  unfold pyRange
  simp only [List.mem_map, List.mem_range]
  constructor
  · rintro ⟨j, hj, rfl⟩
    omega
  · intro hk
    exact ⟨(k - a).toNat, by omega, by omega⟩

/-- The offset loop of `process_date` accumulates exactly the per-offset
contributions, appended to the accumulator. -/
theorem foldl_dateStep_eq (s : Int → String → Option (List String))
    (i1 i2 : String) (date : Int) (L : List Int)
    (acc : List String × List String) :
    L.foldl (dateStep s i1 i2 date) acc =
      (acc.1 ++ (L.map (contrib1 s i1 i2 date)).flatten,
       acc.2 ++ (L.map (contrib2 s i1 i2 date)).flatten) := by
  induction L generalizing acc with
  | nil => simp
  | cons k L ih =>
    rw [List.foldl_cons, ih]
    have hstep : dateStep s i1 i2 date acc k =
        (acc.1 ++ contrib1 s i1 i2 date k, acc.2 ++ contrib2 s i1 i2 date k) := by
      unfold dateStep contrib1 contrib2
      cases h1 : s (date + k) i1 with
      | none => simp
      | some f1 =>
        cases h2 : s date i2 with
        | none => simp
        | some f2 =>
          by_cases hskip : f1 = f2 ∧ i1 ≠ "mdi" ∧ i2 ≠ "mdi" <;> simp [hskip]
    rw [hstep]
    simp

/-- Characterization of membership in the contribution of offset `k` to
`fList1`. -/
theorem mem_contrib1 {s : Int → String → Option (List String)}
    {i1 i2 : String} {date k : Int} {a : String} :
    a ∈ contrib1 s i1 i2 date k ↔
      ∃ f1 f2, s (date + k) i1 = some f1 ∧ s date i2 = some f2 ∧
        ¬(f1 = f2 ∧ i1 ≠ "mdi" ∧ i2 ≠ "mdi") ∧ a ∈ f1 := by
  unfold contrib1
  cases h1 : s (date + k) i1 with
  | none => simp
  | some f1 =>
    cases h2 : s date i2 with
    | none => simp
    | some f2 =>
      by_cases hskip : f1 = f2 ∧ i1 ≠ "mdi" ∧ i2 ≠ "mdi" <;>
        simp_all

/-- Characterization of membership in the contribution of offset `k` to
`fList2`. -/
theorem mem_contrib2 {s : Int → String → Option (List String)}
    {i1 i2 : String} {date k : Int} {a : String} :
    a ∈ contrib2 s i1 i2 date k ↔
      ∃ f1 f2, s (date + k) i1 = some f1 ∧ s date i2 = some f2 ∧
        ¬(f1 = f2 ∧ i1 ≠ "mdi" ∧ i2 ≠ "mdi") ∧ a ∈ f2 := by
  unfold contrib2
  cases h1 : s (date + k) i1 with
  | none => simp
  | some f1 =>
    cases h2 : s date i2 with
    | none => simp
    | some f2 =>
      by_cases hskip : f1 = f2 ∧ i1 ≠ "mdi" ∧ i2 ≠ "mdi" <;>
        simp_all

/-- Membership in the accumulated `fList1`. -/
theorem mem_processDateLists_fst {s : Int → String → Option (List String)}
    {i1 i2 : String} {date t : Int} {a : String} :
    a ∈ (processDateLists s i1 i2 date t).1 ↔
      ∃ k, k ∈ pyRange (0 - t) (1 + t) ∧ a ∈ contrib1 s i1 i2 date k := by
  unfold processDateLists
  rw [foldl_dateStep_eq]
  simp [List.mem_flatten]

/-- Membership in the accumulated `fList2`. -/
theorem mem_processDateLists_snd {s : Int → String → Option (List String)}
    {i1 i2 : String} {date t : Int} {a : String} :
    a ∈ (processDateLists s i1 i2 date t).2 ↔
      ∃ k, k ∈ pyRange (0 - t) (1 + t) ∧ a ∈ contrib2 s i1 i2 date k := by
  unfold processDateLists
  rw [foldl_dateStep_eq]
  simp [List.mem_flatten]

/-- Membership in `itertools.product`. -/
theorem mem_pyProduct {l1 l2 : List String} {a b : String} :
    (a, b) ∈ pyProduct l1 l2 ↔ a ∈ l1 ∧ b ∈ l2 := by
  simp [pyProduct]

/-- A successfully returned `process_date` result is never empty. -/
theorem process_date_some_ne_nil {s : Int → String → Option (List String)}
    {i1 i2 : String} {date t : Int} {r : List (String × String)}
    (h : process_date s i1 i2 date t = some r) : r ≠ [] := by
  unfold process_date at h
  split at h
  · exact absurd h (by simp)
  · injection h with h
    subst h
    assumption

/-- Claim C2 counterexample: with two distinct non-`mdi` instruments whose
lookups return overlapping (but not identical) lists, the `process_date`
result does contain the self-pair `("x", "x")`. -/
theorem claim_C2_counterexample :
    ("a" : String) ≠ "b" ∧ ("a" : String) ≠ "mdi" ∧ ("b" : String) ≠ "mdi" ∧
    sCex 0 "a" = some ["x", "y"] ∧ sCex 0 "b" = some ["x"] ∧
    process_date sCex "a" "b" 0 0 = some [("x", "x"), ("y", "x")] := by
  refine ⟨by decide, by decide, by decide, rfl, rfl, rfl⟩

/-- Claim C2 (amended): the `process_date` result contains no self-pair
`(a, a)` when the instruments are distinct, neither is `"mdi"`, and at every
offset the two lookup lists are either identical (the skip case) or disjoint;
merely overlapping lists are what the counterexample exploits. -/
theorem claim_C2_no_self_pairs (s : Int → String → Option (List String))
    (i1 i2 : String) (date t : Int) (_hne : i1 ≠ i2)
    (h1 : i1 ≠ "mdi") (h2 : i2 ≠ "mdi")
    (hdisj : ∀ k l1 l2, s (date + k) i1 = some l1 → s date i2 = some l2 →
      l1 = l2 ∨ ∀ x, x ∈ l1 → x ∉ l2) :
    ∀ r, process_date s i1 i2 date t = some r → ∀ a, (a, a) ∉ r := by
  intro r hr a hmem
  unfold process_date at hr
  split at hr
  · exact absurd hr (by simp)
  · injection hr with hr
    subst hr
    rw [List.mem_dedup, mem_pyProduct] at hmem
    obtain ⟨hm1, hm2⟩ := hmem
    rw [mem_processDateLists_fst] at hm1
    rw [mem_processDateLists_snd] at hm2
    obtain ⟨k, -, hk⟩ := hm1
    obtain ⟨k', -, hk'⟩ := hm2
    rw [mem_contrib1] at hk
    rw [mem_contrib2] at hk'
    obtain ⟨f1, f2, hs1, hs2, hnskip, haf1⟩ := hk
    obtain ⟨g1, g2, hs1', hs2', hnskip', hag2⟩ := hk'
    have hg2 : g2 = f2 := by
      rw [hs2] at hs2'
      exact (Option.some.injEq _ _).mp hs2'.symm
    rw [hg2] at hag2
    have hne12 : f1 ≠ f2 := by
      intro hEq
      exact hnskip ⟨hEq, h1, h2⟩
    rcases hdisj k f1 f2 hs1 hs2 with hEq | hdis
    · exact hne12 hEq
    · exact hdis a haf1 hag2

/-- Witness for C2 (amended): with disjoint per-offset lookup lists the
concrete result contains no self-pair. -/
theorem claim_C2_witness :
    (("x", "x") : String × String) ∉ (process_date sDisj "a" "b" 0 1).getD [] := by
  intro hmem
  have h := claim_C2_no_self_pairs sDisj "a" "b" 0 1 (by decide) (by decide)
    (by decide)
    (by
      intro k l1 l2 hl1 hl2
      have e1 : sDisj (0 + k) "a" = some ["x"] := rfl
      have e2 : sDisj 0 "b" = some ["y"] := rfl
      injection hl1.symm.trans e1 with h1'
      injection hl2.symm.trans e2 with h2'
      subst h1'
      subst h2'
      right
      decide)
  exact h ((process_date sDisj "a" "b" 0 1).getD []) rfl "x" hmem

/-- Claim C6: `process_date` consults instrument 1 exactly at the offsets
`-t .. t` around the target date and instrument 2 exactly at the target date
(its value is determined by those lookups alone), and Python's
`range(0 - t, 1 + t)` is exactly the integers `k` with `-t ≤ k ≤ t`. -/
theorem claim_C6_offsets (t date : Int) (i1 i2 : String)
    (s1 s2 : Int → String → Option (List String))
    (hag : ∀ k, -t ≤ k → k ≤ t → s1 (date + k) i1 = s2 (date + k) i1)
    (hb : s1 date i2 = s2 date i2) :
    process_date s1 i1 i2 date t = process_date s2 i1 i2 date t ∧
    ∀ k, k ∈ pyRange (0 - t) (1 + t) ↔ (-t ≤ k ∧ k ≤ t) := by
  have hrange : ∀ k : Int, k ∈ pyRange (0 - t) (1 + t) ↔ (-t ≤ k ∧ k ≤ t) := by
    intro k
    rw [mem_pyRange]
    omega
  have hlists : processDateLists s1 i1 i2 date t =
      processDateLists s2 i1 i2 date t := by
    unfold processDateLists
    rw [foldl_dateStep_eq, foldl_dateStep_eq]
    have hmap1 : (pyRange (0 - t) (1 + t)).map (contrib1 s1 i1 i2 date) =
        (pyRange (0 - t) (1 + t)).map (contrib1 s2 i1 i2 date) := by
      refine List.map_congr_left ?_
      intro k hkmem
      obtain ⟨hk1, hk2⟩ := (hrange k).mp hkmem
      unfold contrib1
      rw [hag k hk1 hk2, hb]
    have hmap2 : (pyRange (0 - t) (1 + t)).map (contrib2 s1 i1 i2 date) =
        (pyRange (0 - t) (1 + t)).map (contrib2 s2 i1 i2 date) := by
      refine List.map_congr_left ?_
      intro k hkmem
      obtain ⟨hk1, hk2⟩ := (hrange k).mp hkmem
      unfold contrib2
      rw [hag k hk1 hk2, hb]
    rw [hmap1, hmap2]
  constructor
  · unfold process_date
    rw [hlists]
  · exact hrange

/-- Witness for C6: two lookups that agree on instrument 1 at offsets
`-1..1` and on instrument 2 at the target date (and differ elsewhere) give
equal `process_date` results at tolerance 1. -/
theorem claim_C6_witness :
    process_date sAgree1 "a" "b" 0 1 = process_date sAgree2 "a" "b" 0 1 ∧
    ((-1 : Int) ∈ pyRange (0 - 1) (1 + 1) ∧ (0 : Int) ∈ pyRange (0 - 1) (1 + 1) ∧
      (1 : Int) ∈ pyRange (0 - 1) (1 + 1) ∧ (2 : Int) ∉ pyRange (0 - 1) (1 + 1)) := by
  have h := claim_C6_offsets 1 0 "a" "b" sAgree1 sAgree2
    (by
      intro k hk1 hk2
      have hcase : k = -1 ∨ k = 0 ∨ k = 1 := by omega
      rcases hcase with h | h | h <;> subst h <;> decide)
    (by decide)
  refine ⟨h.1, ?_, ?_, ?_, ?_⟩
  · exact (h.2 (-1)).mpr (by norm_num)
  · exact (h.2 0).mpr (by norm_num)
  · exact (h.2 1).mpr (by norm_num)
  · intro hmem
    have := (h.2 2).mp hmem
    omega

/-- Unfolding `scanLoop` when the loop has finished. -/
theorem scanLoop_stop {m : Int → Option (List (String × String))}
    {date endd : Int} {fi : List (String × String)} {da : List Int}
    (h : ¬ date < endd) : scanLoop m date endd fi da = (fi, da) := by
  rw [scanLoop]
  simp [h]

/-- Unfolding `scanLoop` for one loop iteration. -/
theorem scanLoop_go {m : Int → Option (List (String × String))}
    {date endd : Int} {fi : List (String × String)} {da : List Int}
    (h : date < endd) :
    scanLoop m date endd fi da =
      match m date with
      | some fs => scanLoop m (date + 1) endd (fi ++ fs) (da ++ [date])
      | none => scanLoop m (date + 1) endd fi da := by
  rw [scanLoop]
  simp [h]

/-- Unfolding `scanLoop` for one failed-match iteration. -/
theorem scanLoop_go_none {m : Int → Option (List (String × String))}
    {date endd : Int} {fi : List (String × String)} {da : List Int}
    (h : date < endd) (hm : m date = none) :
    scanLoop m date endd fi da = scanLoop m (date + 1) endd fi da := by
  rw [scanLoop_go h, hm]

/-- Unfolding `scanLoop` for one successful-match iteration. -/
theorem scanLoop_go_some {m : Int → Option (List (String × String))}
    {date endd : Int} {fi : List (String × String)} {da : List Int}
    {fs : List (String × String)} (h : date < endd) (hm : m date = some fs) :
    scanLoop m date endd fi da =
      scanLoop m (date + 1) endd (fi ++ fs) (da ++ [date]) := by
  rw [scanLoop_go h, hm]

/-- The pair accumulator of `scanLoop` only grows. -/
theorem scanLoop_files_mono (m : Int → Option (List (String × String))) :
    ∀ (n : Nat) (date endd : Int), (endd - date).toNat ≤ n →
    ∀ (fi : List (String × String)) (da : List Int) (p : String × String),
      p ∈ fi → p ∈ (scanLoop m date endd fi da).1 := by
  intro n
  induction n with
  | zero =>
    intro date endd hn fi da p hp
    rw [scanLoop_stop (by omega)]
    exact hp
  | succ n ih =>
    intro date endd hn fi da p hp
    by_cases h : date < endd
    · cases hm : m date with
      | some fs =>
        rw [scanLoop_go_some h hm]
        exact ih (date + 1) endd (by omega) (fi ++ fs) (da ++ [date]) p
          (List.mem_append_left _ hp)
      | none =>
        rw [scanLoop_go_none h hm]
        exact ih (date + 1) endd (by omega) fi da p hp
    · rw [scanLoop_stop h]
      exact hp

/-- Every date recorded by `scanLoop` lies in the remaining window, comes
from a successful per-day match, and that match's pairs all end up in the
final pair accumulator. -/
theorem scanLoop_dates_spec (m : Int → Option (List (String × String))) :
    ∀ (n : Nat) (date endd : Int), (endd - date).toNat ≤ n →
    ∀ (fi : List (String × String)) (da : List Int) (x : Int),
      x ∈ (scanLoop m date endd fi da).2 →
      x ∈ da ∨ (date ≤ x ∧ x < endd ∧
        ∃ l, m x = some l ∧ ∀ p, p ∈ l → p ∈ (scanLoop m date endd fi da).1) := by
  intro n
  induction n with
  | zero =>
    intro date endd hn fi da x hx
    rw [scanLoop_stop (by omega)] at hx
    exact Or.inl hx
  | succ n ih =>
    intro date endd hn fi da x hx
    by_cases h : date < endd
    · cases hm : m date with
      | some fs =>
        rw [scanLoop_go_some h hm] at hx ⊢
        rcases ih (date + 1) endd (by omega) (fi ++ fs) (da ++ [date]) x hx with
          hin | ⟨hge, hlt, l, hml, hsub⟩
        · rcases List.mem_append.mp hin with hda | hsingle
          · exact Or.inl hda
          · have hx_eq : x = date := by simpa using hsingle
            subst hx_eq
            refine Or.inr ⟨le_refl x, h, fs, hm, ?_⟩
            intro p hp
            exact scanLoop_files_mono m (endd - (x + 1)).toNat (x + 1) endd
              le_rfl (fi ++ fs) (da ++ [x]) p (List.mem_append_right _ hp)
        · exact Or.inr ⟨by omega, hlt, l, hml, hsub⟩
      | none =>
        rw [scanLoop_go_none h hm] at hx ⊢
        rcases ih (date + 1) endd (by omega) fi da x hx with
          hin | ⟨hge, hlt, l, hml, hsub⟩
        · exact Or.inl hin
        · exact Or.inr ⟨by omega, hlt, l, hml, hsub⟩
    · rw [scanLoop_stop h] at hx
      exact Or.inl hx

/-- The matched-date sequence grows by at most one entry per remaining day. -/
theorem scanLoop_dates_len (m : Int → Option (List (String × String))) :
    ∀ (n : Nat) (date endd : Int), (endd - date).toNat ≤ n →
    ∀ (fi : List (String × String)) (da : List Int),
      (scanLoop m date endd fi da).2.length ≤
        da.length + (endd - date).toNat := by
  intro n
  induction n with
  | zero =>
    intro date endd hn fi da
    rw [scanLoop_stop (by omega)]
    simp
  | succ n ih =>
    intro date endd hn fi da
    by_cases h : date < endd
    · cases hm : m date with
      | some fs =>
        rw [scanLoop_go_some h hm]
        have hrec := ih (date + 1) endd (by omega) (fi ++ fs) (da ++ [date])
        simp only [List.length_append, List.length_cons, List.length_nil] at hrec
        omega
      | none =>
        rw [scanLoop_go_none h hm]
        have hrec := ih (date + 1) endd (by omega) fi da
        omega
    · rw [scanLoop_stop h]
      simp

/-- The matched-date sequence is strictly increasing (given a strictly
increasing accumulator below the current day). -/
theorem scanLoop_dates_sorted (m : Int → Option (List (String × String))) :
    ∀ (n : Nat) (date endd : Int), (endd - date).toNat ≤ n →
    ∀ (fi : List (String × String)) (da : List Int),
      da.Pairwise (· < ·) → (∀ x, x ∈ da → x < date) →
      (scanLoop m date endd fi da).2.Pairwise (· < ·) := by
  intro n
  induction n with
  | zero =>
    intro date endd hn fi da hpw hlt
    rw [scanLoop_stop (by omega)]
    exact hpw
  | succ n ih =>
    intro date endd hn fi da hpw hlt
    by_cases h : date < endd
    · cases hm : m date with
      | some fs =>
        rw [scanLoop_go_some h hm]
        refine ih (date + 1) endd (by omega) (fi ++ fs) (da ++ [date]) ?_ ?_
        · rw [List.pairwise_append]
          refine ⟨hpw, List.pairwise_singleton _ _, ?_⟩
          intro a ha b hb
          have hb_eq : b = date := by simpa using hb
          subst hb_eq
          exact hlt a ha
        · intro x hx
          rcases List.mem_append.mp hx with hda | hs
          · have := hlt x hda
            omega
          · have : x = date := by simpa using hs
            omega
      | none =>
        rw [scanLoop_go_none h hm]
        exact ih (date + 1) endd (by omega) fi da hpw
          (fun x hx => by have := hlt x hx; omega)
    · rw [scanLoop_stop h]
      exact hpw

/-- Claim C7: for a completed scan the matched-date sequence has at most one
entry per day of the window (it is duplicate-free and its length is at most
the day count), every recorded date lies in `[start, endd)`, every recorded
date's per-day match succeeded and contributed at least one pair to the
returned pair set, and the day counter advances by exactly one per iteration
whether or not the day matched. -/
theorem claim_C7_scan_invariants (m : Int → Option (List (String × String)))
    (hm : ∀ d l, m d = some l → l ≠ []) (start endd : Int) :
    (scanLoop m start endd [] []).2.length ≤ (endd - start).toNat ∧
    (∀ d, d ∈ (scanLoop m start endd [] []).2 → start ≤ d ∧ d < endd) ∧
    (scanLoop m start endd [] []).2.Nodup ∧
    (∀ d, d ∈ (scanLoop m start endd [] []).2 →
      ∃ l, m d = some l ∧ l ≠ [] ∧
        ∀ p, p ∈ l → p ∈ (scanLoop m start endd [] []).1) ∧
    (∀ (date : Int) (fi : List (String × String)) (da : List Int),
      date < endd →
      (m date = none → scanLoop m date endd fi da = scanLoop m (date + 1) endd fi da) ∧
      (∀ fs, m date = some fs →
        scanLoop m date endd fi da =
          scanLoop m (date + 1) endd (fi ++ fs) (da ++ [date]))) := by
  refine ⟨?_, ?_, ?_, ?_, ?_⟩
  · have hlen := scanLoop_dates_len m (endd - start).toNat start endd le_rfl [] []
    simpa using hlen
  · intro d hd
    rcases scanLoop_dates_spec m (endd - start).toNat start endd le_rfl [] [] d hd with
      hin | ⟨h1, h2, -⟩
    · simp at hin
    · exact ⟨h1, h2⟩
  · have hpw := scanLoop_dates_sorted m (endd - start).toNat start endd le_rfl [] []
      List.Pairwise.nil (by simp)
    exact hpw.imp (fun hab => ne_of_lt hab)
  · intro d hd
    rcases scanLoop_dates_spec m (endd - start).toNat start endd le_rfl [] [] d hd with
      hin | ⟨-, -, l, hml, hsub⟩
    · simp at hin
    · exact ⟨l, hml, hm d l hml, hsub⟩
  · intro date fi da h
    exact ⟨fun hnone => scanLoop_go_none h hnone,
           fun fs hfs => scanLoop_go_some h hfs⟩

/-- Witness for C7: the invariants instantiated with the real per-day matcher
`process_date` over a concrete lookup on the window `[0, 2)`. -/
theorem claim_C7_witness :
    (scanLoop (fun d => process_date sScan "a" "b" d 0) 0 2 [] []).2.length ≤
      ((2 : Int) - 0).toNat ∧
    (scanLoop (fun d => process_date sScan "a" "b" d 0) 0 2 [] []).2.Nodup := by
  have h := claim_C7_scan_invariants (fun d => process_date sScan "a" "b" d 0)
    (fun d l hdl => process_date_some_ne_nil hdl) 0 2
  exact ⟨h.1, h.2.2.1⟩



/-- The only exception one loop iteration of `mdi_file_choose` can raise is
`TypeError` (from the `int >= str` comparison). -/
theorem chooseStep_error {st : String × Raw × Int} {x : Candidate} {e : UtilErr}
    (h : chooseStep st x = Except.error e) : e = UtilErr.typeError := by
  unfold chooseStep at h
  split at h
  · simp at h
  · split at h
    · injection h with h
      exact h.symm
    · split at h
      · split at h
        · simp at h
        · split at h <;> simp at h
      · simp at h

/-- The only exception the candidate loop of `mdi_file_choose` can raise is
`TypeError`. -/
theorem foldlM_chooseStep_error :
    ∀ (cs : List Candidate) (st : String × Raw × Int) (e : UtilErr),
      List.foldlM chooseStep st cs = Except.error e → e = UtilErr.typeError := by
  intro cs
  induction cs with
  | nil =>
    intro st e h
    simp [pure, Except.pure] at h
  | cons c cs ih =>
    intro st e h
    rw [List.foldlM_cons] at h
    cases hc : chooseStep st c with
    | error e2 =>
      rw [hc] at h
      simp only [Bind.bind, Except.bind] at h
      injection h with h
      rw [← h]
      exact chooseStep_error hc
    | ok st2 =>
      rw [hc] at h
      simp only [Bind.bind, Except.bind] at h
      exact ih st2 e h

/-- Unfolding `mdi_file_choose` on a non-empty candidate list. -/
theorem mdi_file_choose_cons {f : List Candidate} {lastc : Candidate}
    (hl : f.getLast? = some lastc) :
    mdi_file_choose f = Except.map (fun st => st.1)
      (List.foldlM chooseStep (lastc.name, Raw.int 0, 100000) f) := by
  unfold mdi_file_choose
  rw [hl]

/-- On a non-empty candidate list the only exception `mdi_file_choose` can
raise is `TypeError`. -/
theorem mdi_file_choose_error {f : List Candidate} {e : UtilErr}
    (hne : f ≠ []) (h : mdi_file_choose f = Except.error e) :
    e = UtilErr.typeError := by
  cases hl : f.getLast? with
  | none =>
    exact absurd (List.getLast?_eq_none_iff.mp hl) hne
  | some lastc =>
    rw [mdi_file_choose_cons hl] at h
    cases hf : List.foldlM chooseStep (lastc.name, Raw.int 0, 100000) f with
    | error e2 =>
      rw [hf] at h
      simp only [Except.map] at h
      injection h with h
      rw [← h]
      exact foldlM_chooseStep_error f _ e2 hf
    | ok st =>
      rw [hf] at h
      simp [Except.map] at h




/-- Unfolding `search_file` once the search pattern has been built. -/
theorem search_file_eq_of_spec {glob : String → List String}
    {hdr : String → Option Raw × Option Int} {dataRoot : String}
    {date : PyDateTime} {instr : String} {auto : Bool} {spec : String}
    (hspec : searchSpec dataRoot date instr = some spec) :
    search_file glob hdr dataRoot date instr auto =
      match glob spec with
      | [] => Except.error UtilErr.ioError
      | f :: fs =>
        if instr = "mdi" ∧ auto = true then
          (mdi_file_choose ((f :: fs).map
            (fun nm => { name := nm, interval := (hdr nm).1,
                         missvals := (hdr nm).2 }))).map FileRet.single
        else if auto = true then
          Except.ok (FileRet.single ((f :: fs).getLast (List.cons_ne_nil f fs)))
        else
          Except.ok (FileRet.multiple (f :: fs)) := by
  unfold search_file
  rw [hspec]

/-- Unfolding `search_file` when the pattern expansion is empty. -/
theorem search_file_empty {glob : String → List String}
    {hdr : String → Option Raw × Option Int} {dataRoot : String}
    {date : PyDateTime} {instr : String} {auto : Bool} {spec : String}
    (hspec : searchSpec dataRoot date instr = some spec)
    (hg : glob spec = []) :
    search_file glob hdr dataRoot date instr auto = Except.error UtilErr.ioError := by
  rw [search_file_eq_of_spec hspec, hg]

/-- Unfolding `search_file` when the pattern expansion is non-empty. -/
theorem search_file_cons {glob : String → List String}
    {hdr : String → Option Raw × Option Int} {dataRoot : String}
    {date : PyDateTime} {instr : String} {auto : Bool} {spec : String}
    {f : String} {fs : List String}
    (hspec : searchSpec dataRoot date instr = some spec)
    (hg : glob spec = f :: fs) :
    search_file glob hdr dataRoot date instr auto =
      (if instr = "mdi" ∧ auto = true then
        (mdi_file_choose ((f :: fs).map
          (fun nm => { name := nm, interval := (hdr nm).1,
                       missvals := (hdr nm).2 }))).map FileRet.single
      else if auto = true then
        Except.ok (FileRet.single ((f :: fs).getLast (List.cons_ne_nil f fs)))
      else
        Except.ok (FileRet.multiple (f :: fs))) := by
  rw [search_file_eq_of_spec hspec, hg]


/-- Claim C4 (amended): for every recognized instrument `search_file` raises
the no-files-found error exactly when the pattern expansion is empty, and any
successful return is non-empty (it never returns an empty sequence); outside
the mdi-with-auto-select path no exception other than no-files-found can be
raised. -/
theorem claim_C4_locator (glob : String → List String)
    (hdr : String → Option Raw × Option Int) (dataRoot : String)
    (date : PyDateTime) (instr : String) (auto : Bool) (spec : String)
    (hspec : searchSpec dataRoot date instr = some spec) :
    (search_file glob hdr dataRoot date instr auto = Except.error UtilErr.ioError ↔
      glob spec = []) ∧
    (∀ r, search_file glob hdr dataRoot date instr auto = Except.ok r →
      retNonempty r = true) ∧
    (¬(instr = "mdi" ∧ auto = true) →
      ∀ e, search_file glob hdr dataRoot date instr auto = Except.error e →
        e = UtilErr.ioError) := by
  cases hg : glob spec with
  | nil =>
    rw [search_file_empty hspec hg]
    refine ⟨by simp, ?_, ?_⟩
    · intro r hr
      exact absurd hr (by simp)
    · intro hnot e he
      injection he with he
      exact he.symm
  | cons f fs =>
    rw [search_file_cons hspec hg]
    by_cases hmdi : instr = "mdi" ∧ auto = true
    · rw [if_pos hmdi]
      refine ⟨?_, ?_, ?_⟩
      · constructor
        · intro herr
          cases hch : mdi_file_choose ((f :: fs).map
              (fun nm => { name := nm, interval := (hdr nm).1,
                           missvals := (hdr nm).2 })) with
          | error e2 =>
            rw [hch] at herr
            simp only [Except.map] at herr
            injection herr with herr
            have := mdi_file_choose_error (by simp) hch
            rw [this] at herr
            exact absurd herr (by simp)
          | ok v =>
            rw [hch] at herr
            simp [Except.map] at herr
        · intro hcontra
          exact absurd hcontra (by simp)
      · intro r hr
        cases hch : mdi_file_choose ((f :: fs).map
            (fun nm => { name := nm, interval := (hdr nm).1,
                         missvals := (hdr nm).2 })) with
        | error e2 =>
          rw [hch] at hr
          simp [Except.map] at hr
        | ok v =>
          rw [hch] at hr
          simp only [Except.map] at hr
          injection hr with hr
          rw [← hr]
          rfl
      · intro hnot
        exact absurd hmdi hnot
    · rw [if_neg hmdi]
      by_cases hauto : auto = true
      · rw [if_pos hauto]
        refine ⟨by simp, ?_, ?_⟩
        · intro r hr
          injection hr with hr
          rw [← hr]
          rfl
        · intro hnot e he
          exact absurd he (by simp)
      · rw [if_neg hauto]
        refine ⟨by simp, ?_, ?_⟩
        · intro r hr
          injection hr with hr
          rw [← hr]
          simp [retNonempty]
        · intro hnot e he
          exact absurd he (by simp)

/-- Claim C4 counterexample: for `mdi` with auto-select and a non-empty
pattern expansion, `search_file` can raise `TypeError` (an empty-string
`INTERVAL` header becomes the running best and the next candidate's integer
interval is compared against it) — so it neither returns a non-empty result
nor raises the no-files-found error. -/
theorem claim_C4_counterexample :
    search_file globTwo hdrCex "H:" d₀ "mdi" true = Except.error UtilErr.typeError ∧
    globTwo ((searchSpec "H:" d₀ "mdi").getD "") ≠ [] := by
  constructor
  · rfl
  · simp [globTwo]

/-- Witness for C4 (amended): the locator contract instantiated at a concrete
empty glob for instrument `hmi`. -/
theorem claim_C4_witness :
    (search_file globNone hdrNone "H:" d₀ "hmi" false = Except.error UtilErr.ioError ↔
      globNone ((searchSpec "H:" d₀ "hmi").getD "") = []) ∧
    (∀ r, search_file globNone hdrNone "H:" d₀ "hmi" false = Except.ok r →
      retNonempty r = true) := by
  have h := claim_C4_locator globNone hdrNone "H:" d₀ "hmi" false
    ((searchSpec "H:" d₀ "hmi").getD "") rfl
  exact ⟨h.1, h.2.1⟩


end CrossCal
